import Mathlib

/-!
Verification development for the agentic tool-orchestration core:
ToolGuard (src/unnamed/part_003), ToolSandbox and createSecureTool
(src/unnamed/part_004), and ToolRegistry (src/src/tools.ts).

JavaScript runtime values are modelled by the inductive type JVal.
JavaScript numbers are restricted to integers, which is the fragment the
claims exercise.  Asynchronous settlement is modelled by explicit outcome
parameters (the value an awaited promise delivered), and the timeout race
inside ToolSandbox.executeWithTimeout is modelled by a fold over the
temporally ordered list of race events hitting the shared promise.
Mutable JavaScript arrays reached through shared references (the config
deniedTools list) are modelled by an explicit array store indexed by
reference numbers, mirroring the aliasing the object spread operator
preserves.
-/

/-- Model of a JavaScript runtime value.  The bigint constructor stands for
values JSON.stringify throws on. -/
inductive JVal where
  | null
  | undef
  | bool (b : Bool)
  | num (n : Int)
  | str (s : String)
  | buffer (bytes : List Nat)
  | bigint (n : Int)
  | arr (elems : List JVal)
  | obj (fields : List (String × JVal))
deriving Repr, BEq

/-- JavaScript typeof v === "object", which holds for null, arrays, plain
objects and Buffers. -/
def isObjectTyped : JVal → Bool
  | .null => true
  | .arr _ => true
  | .obj _ => true
  | .buffer _ => true
  | _ => false

/-- The key names ToolGuard.hasPrototypePollution rejects. -/
def dangerousKeys : List String := ["__proto__", "constructor", "prototype"]

/-- Recursive scan of ToolGuard.hasPrototypePollution, phrased over the
remaining depth budget: the source guard `depth > 10` at entry corresponds
to a budget of `11 - depth`, and each recursive step passes `depth + 1`,
that is, decrements the budget.  Object keys are checked against
dangerousKeys; the scan recurses into values of typeof object.  Array keys
are index strings and never dangerous, so only the elements are scanned.
Null and Buffer values expose no dangerous own keys. -/
def hasPPAux : Nat → JVal → Bool
  | 0, _ => false
  | budget + 1, v =>
    match v with
    | .obj fields =>
      fields.any (fun p =>
        dangerousKeys.contains p.1 || (isObjectTyped p.2 && hasPPAux budget p.2))
    | .arr elems =>
      elems.any (fun e => isObjectTyped e && hasPPAux budget e)
    | _ => false

/-- ToolGuard.hasPrototypePollution(obj, depth) from part_003 lines 265-289. -/
def hasPrototypePollution (v : JVal) (depth : Nat) : Bool :=
  hasPPAux (11 - depth) v

/-- ToolSecurityConfig from part_003.  The deniedTools array (and the
optional allowedTools array) are JavaScript array objects held by
reference; the reference indexes an explicit ArrayStore so that the
aliasing created by shallow copies is expressible. -/
structure ToolSecurityConfig where
  enabled : Bool
  validateParams : Bool
  sandboxExecution : Bool
  maxExecutionTime : Nat
  maxConcurrentCalls : Nat
  deniedToolsRef : Nat
  allowedToolsRef : Option Nat
deriving Repr, BEq

/-- Heap of string-array objects; a reference is an index into arrays. -/
structure ArrayStore where
  arrays : List (List String)
deriving Repr, BEq

/-- Read the array behind a reference. -/
def arrayGet (store : ArrayStore) (ref : Nat) : List String :=
  store.arrays.getD ref []

/-- JavaScript arr.push(x) performed on the array behind a reference. -/
def arrayPush (store : ArrayStore) (ref : Nat) (x : String) : ArrayStore :=
  { arrays := store.arrays.set ref (arrayGet store ref ++ [x]) }

/-- One issue of a failed Zod parse: the field path and its message. -/
structure ZodIssue where
  path : List String
  message : String
deriving Repr, BEq

/-- Opaque schema capability: Zod schema.parse either returns the validated
(possibly coerced) value or raises a ZodError carrying issues. -/
def ZodSchemaModel : Type := JVal → Except (List ZodIssue) JVal

/-- ToolValidationResult from part_003. -/
structure ToolValidationResult where
  success : Bool
  data : Option JVal := none
  error : Option String := none
  violations : Option (List String) := none
deriving Repr, BEq

/-- Outcome of JSON.parse on the untrusted argument text: either a syntax
error or the parsed value. -/
inductive JsonParseResult where
  | malformed
  | value (v : JVal)
deriving Repr, BEq

namespace ToolGuard

/-- ToolGuard.isToolAllowed from part_003 lines 186-213: when disabled
always true, else the deny list is checked first, then the optional allow
list. -/
def isToolAllowed (store : ArrayStore) (cfg : ToolSecurityConfig)
    (toolName : String) : Bool :=
  if !cfg.enabled then true
  else if (arrayGet store cfg.deniedToolsRef).contains toolName then false
  else
    match cfg.allowedToolsRef with
    | some ref => (arrayGet store ref).contains toolName
    | none => true

/-- ToolGuard.getConfig from part_003 lines 215-220: an object spread
copies every top-level field, so the deniedTools reference is copied as a
reference, not the array contents. -/
def getConfig (cfg : ToolSecurityConfig) : ToolSecurityConfig :=
  { enabled := cfg.enabled
    validateParams := cfg.validateParams
    sandboxExecution := cfg.sandboxExecution
    maxExecutionTime := cfg.maxExecutionTime
    maxConcurrentCalls := cfg.maxConcurrentCalls
    deniedToolsRef := cfg.deniedToolsRef
    allowedToolsRef := cfg.allowedToolsRef }

/-- ToolGuard.denyTool from part_003 lines 229-236: push onto the denied
array unless already present. -/
def denyTool (store : ArrayStore) (cfg : ToolSecurityConfig)
    (toolName : String) : ArrayStore :=
  if !(arrayGet store cfg.deniedToolsRef).contains toolName then
    arrayPush store cfg.deniedToolsRef toolName
  else store

/-- ToolGuard.validateParams from part_003 lines 92-127: bypassed when the
guard or param validation is disabled; otherwise the schema parses the
value, and a ZodError is converted into one "path: message" violation per
issue with the fixed error text. -/
def validateParams (cfg : ToolSecurityConfig) (params : JVal)
    (schema : ZodSchemaModel) : ToolValidationResult :=
  if !(cfg.enabled && cfg.validateParams) then
    { success := true, data := some params }
  else
    match schema params with
    | .ok d => { success := true, data := some d }
    | .error issues =>
      { success := false
        error := some "Parameter validation failed"
        violations := some (issues.map (fun i =>
          String.intercalate "." i.path ++ ": " ++ i.message)) }

/-- ToolGuard.parseToolArguments from part_003 lines 132-184: with the
guard disabled the text is parsed with no safety checks (a parse exception
propagates, modelled by the Except error).  Enabled, a parse failure
yields the invalid-JSON result, then the parsed value is screened for
prototype pollution, then rejected unless it is a non-null non-array
object. -/
def parseToolArguments (cfg : ToolSecurityConfig) (input : JsonParseResult) :
    Except String ToolValidationResult :=
  if !cfg.enabled then
    match input with
    | .malformed => .error "SyntaxError"
    | .value v => .ok { success := true, data := some v }
  else
    match input with
    | .malformed =>
      .ok { success := false, error := some "Invalid JSON in tool arguments" }
    | .value v =>
      if hasPrototypePollution v 0 then
        .ok { success := false
              error := some "Invalid tool arguments: potentially malicious content detected" }
      else if !(match v with | .obj _ => true | .buffer _ => true | _ => false) then
        .ok { success := false, error := some "Tool arguments must be a JSON object" }
      else
        .ok { success := true, data := some v }

end ToolGuard

/-- A guard configuration with the DEFAULT_CONFIG field values of
part_003, the denied array living at reference 0. -/
def defaultGuardConfig : ToolSecurityConfig :=
  { enabled := true
    validateParams := true
    sandboxExecution := false
    maxExecutionTime := 30000
    maxConcurrentCalls := 10
    deniedToolsRef := 0
    allowedToolsRef := none }

/-- Store holding one empty denied-tools array at reference 0. -/
def emptyStore : ArrayStore := { arrays := [[]] }

/-- JSON.parse of the text {"__proto__":{"x":1}}: JSON.parse creates
__proto__ as an own data property. -/
def jProto1 : JVal := .obj [("__proto__", .obj [("x", .num 1)])]

/-- JSON.parse of the text {"constructor":{"prototype":{}}}. -/
def jProto2 : JVal := .obj [("constructor", .obj [("prototype", .obj [])])]

/-- JSON.parse of the text {"a":{"b":{"__proto__":{}}}}. -/
def jProto3 : JVal := .obj [("a", .obj [("b", .obj [("__proto__", .obj [])])])]

/-- JSON.parse of the text {"a":1}. -/
def jPlain : JVal := .obj [("a", .num 1)]

/-- Object graph whose only dangerous key sits inside the object nested k
levels below the root: nestProto 0 has __proto__ at the top level. -/
def nestProto : Nat → JVal
  | 0 => .obj [("__proto__", .obj [])]
  | k + 1 => .obj [("a", nestProto k)]

/-- Hexadecimal digit used by the \u00XX escape of JSON.stringify. -/
def hexDigit (n : Nat) : String :=
  String.singleton (Char.ofNat (if n < 10 then 48 + n else 87 + n))

/-- JSON.stringify escaping of one character inside a string literal. -/
def escapeJsonChar (c : Char) : String :=
  if c = '"' then "\\\""
  else if c = '\\' then "\\\\"
  else if c = '\n' then "\\n"
  else if c = '\r' then "\\r"
  else if c = '\t' then "\\t"
  else if c = '\x08' then "\\b"
  else if c = '\x0c' then "\\f"
  else if c.toNat < 32 then
    "\\u00" ++ hexDigit (c.toNat / 16) ++ hexDigit (c.toNat % 16)
  else String.singleton c

/-- JSON string literal for s, quotes included. -/
def jsonQuote (s : String) : String :=
  "\"" ++ String.join (s.data.map escapeJsonChar) ++ "\""

mutual

/-- JSON.stringify: ok none models the undefined return (top-level
undefined), ok (some s) the produced text, and error a thrown TypeError
(bigint values).  Buffers serialize through their toJSON record. -/
def jsonStringify : JVal → Except Unit (Option String)
  | .null => .ok (some "null")
  | .undef => .ok none
  | .bool b => .ok (some (if b then "true" else "false"))
  | .num n => .ok (some (toString n))
  | .str s => .ok (some (jsonQuote s))
  | .buffer bytes =>
    .ok (some ("\x7b\"type\":\"Buffer\",\"data\":["
      ++ String.intercalate "," (bytes.map toString) ++ "]\x7d"))
  | .bigint _ => .error ()
  | .arr elems =>
    match jsonStringifyElems elems with
    | .ok parts => .ok (some ("[" ++ String.intercalate "," parts ++ "]"))
    | .error e => .error e
  | .obj fields =>
    match jsonStringifyFields fields with
    | .ok parts => .ok (some ("\x7b" ++ String.intercalate "," parts ++ "\x7d"))
    | .error e => .error e

/-- Array elements: an undefined element serializes as null. -/
def jsonStringifyElems : List JVal → Except Unit (List String)
  | [] => .ok []
  | v :: rest =>
    match jsonStringify v with
    | .error e => .error e
    | .ok s =>
      match jsonStringifyElems rest with
      | .error e => .error e
      | .ok tail => .ok ((match s with | some t => t | none => "null") :: tail)

/-- Object properties: a property whose value serializes to undefined is
omitted. -/
def jsonStringifyFields : List (String × JVal) → Except Unit (List String)
  | [] => .ok []
  | (k, v) :: rest =>
    match jsonStringify v with
    | .error e => .error e
    | .ok s =>
      match jsonStringifyFields rest with
      | .error e => .error e
      | .ok tail =>
        match s with
        | some t => .ok ((jsonQuote k ++ ":" ++ t) :: tail)
        | none => .ok tail

end

/-- ToolSandbox.estimateSize from part_004 lines 286-297: null and
undefined are 0 bytes, strings 2 bytes per character, numbers 8, booleans
4, Buffers their byte length, and everything else twice the length of its
JSON serialization, or 0 when serialization throws or yields no string. -/
def estimateSize : JVal → Nat
  | .null => 0
  | .undef => 0
  | .str s => s.length * 2
  | .num _ => 8
  | .bool _ => 4
  | .buffer bytes => bytes.length
  | v =>
    match jsonStringify v with
    | .ok (some s) => s.length * 2
    | .ok none => 0
    | .error _ => 0

/-- Fire-and-forget sandbox notifications of part_004 (the events record),
logged so that theorems can count emissions. -/
inductive SandboxNotification where
  | concurrencyExceeded (toolName : String) (activeCount : Nat)
  | timeoutFired (toolName : String) (timeoutMs : Nat)
  | outputSizeExceeded (toolName : String) (size : Nat) (maxSize : Nat)
  | cancelled (executionId : String)
deriving Repr, BEq

/-- Ambient context bag passed to a tool. -/
def ToolContext : Type := List (String × JVal)

/-- Tool definition restricted to the capabilities the execution path
reads: the registry stores the full record, but only name, the optional
Zod schema and the execute capability matter here.  The execute capability
is the settled outcome of the promise the tool returns. -/
structure ToolModel where
  name : String
  description : String
  schema : Option ZodSchemaModel
  executeFn : JVal → ToolContext → Except String JVal

namespace ToolSandbox

/-- Mutable sandbox state: config, the active-executions map (executionId
to the aborted flag of its AbortController), the monotone execution
counter, and the notification log. -/
structure State where
  config : ToolSecurityConfig
  activeExecutions : List (String × Bool)
  executionCount : Nat
  notifications : List SandboxNotification
deriving Repr, BEq

/-- Execution id minted by execute: exec-(count)-(Date.now()). -/
def mkExecutionId (count : Nat) (now : Nat) : String :=
  "exec-" ++ toString count ++ "-" ++ toString now

/-- JavaScript a || b on numeric options: 0 and undefined both fall back. -/
def jsOrNat (o : Option Nat) (d : Nat) : Nat :=
  match o with
  | some n => if n == 0 then d else n
  | none => d

/-- Per-call SandboxOptions fields read by execute (the hooks are passed
separately as settled outcomes). -/
structure RunOptions where
  maxExecutionTime : Option Nat := none
  maxOutputSize : Option Nat := none
  allowedOperations : Option (List String) := none

/-- Result of the synchronous prefix of ToolSandbox.execute, up to the
first await. -/
inductive StartOutcome where
  | bypass
  | rejected (message : String)
  | started (executionId : String) (maxOutputSize : Nat) (timeoutMs : Nat)
deriving Repr, BEq

/-- Synchronous prefix of ToolSandbox.execute (part_004 lines 106-144):
bypass when disabled, concurrency gate against the active-executions size,
else mint an executionId, register its controller, and resolve the
effective per-call output-size and timeout bounds. -/
def start (st : State) (toolName : String) (opts : RunOptions) (now : Nat) :
    StartOutcome × State :=
  if !(st.config.enabled && st.config.sandboxExecution) then (.bypass, st)
  else if st.activeExecutions.length ≥ st.config.maxConcurrentCalls then
    (.rejected "Too many concurrent tool executions",
     { st with notifications := st.notifications ++
         [.concurrencyExceeded toolName st.activeExecutions.length] })
  else
    let executionId := mkExecutionId (st.executionCount + 1) now
    (.started executionId
       (jsOrNat opts.maxOutputSize (1024 * 1024))
       (jsOrNat opts.maxExecutionTime st.config.maxExecutionTime),
     { st with
         executionCount := st.executionCount + 1
         activeExecutions := st.activeExecutions ++ [(executionId, false)] })

/-- Completion of ToolSandbox.execute (part_004 lines 146-184), entered
once the awaited work settles.  beforeHookOutcome is the settled outcome
of the optional onBeforeExecution hook (none when no hook is configured),
raceOutcome the settled outcome of executeWithTimeout, afterHook the
optional onAfterExecution hook as a function of (result, error).  The try
block propagates a pre-hook throw, a wrapped-call failure, an output-size
rejection, or a success-path post-hook throw into the catch block, which
reruns the post-hook with the error; the finally block always deletes the
executionId from the active map. -/
def finish (st : State) (toolName : String) (executionId : String)
    (maxOutputSize : Nat)
    (beforeHookOutcome : Option (Except String Unit))
    (raceOutcome : Except String JVal)
    (afterHook : Option (Option JVal → Option String → Except String Unit)) :
    Except String JVal × State :=
  let tryStep : Except String JVal × List SandboxNotification :=
    match beforeHookOutcome with
    | some (.error e) => (.error e, [])
    | _ =>
      match raceOutcome with
      | .error e => (.error e, [])
      | .ok v =>
        let outputSize := estimateSize v
        if outputSize > maxOutputSize then
          (.error "Tool output exceeded maximum size limit",
           [.outputSizeExceeded toolName outputSize maxOutputSize])
        else
          match afterHook with
          | some h =>
            (match h (some v) none with
             | .ok _ => .ok v
             | .error e => .error e, [])
          | none => (.ok v, [])
  let finalOutcome : Except String JVal :=
    match tryStep.1 with
    | .ok v => .ok v
    | .error e =>
      match afterHook with
      | some h =>
        match h none (some e) with
        | .ok _ => .error e
        | .error e2 => .error e2
      | none => .error e
  (finalOutcome,
   { st with
       notifications := st.notifications ++ tryStep.2
       activeExecutions :=
         st.activeExecutions.filter (fun p => p.1 != executionId) })

/-- ToolSandbox.execute assembled from its synchronous prefix and its
completion: bypass invokes the tool directly with the unmodified context,
a concurrency rejection throws without registering anything, and a started
execution completes through finish with the settled race outcome. -/
def executeRun (st : State) (tool : ToolModel) (params : JVal)
    (ctx : ToolContext) (opts : RunOptions) (now : Nat)
    (beforeHookOutcome : Option (Except String Unit))
    (raceOutcome : Except String JVal)
    (afterHook : Option (Option JVal → Option String → Except String Unit)) :
    Except String JVal × State :=
  match start st tool.name opts now with
  | (.bypass, st1) => (tool.executeFn params ctx, st1)
  | (.rejected msg, st1) => (.error msg, st1)
  | (.started executionId maxOut _timeoutMs, st1) =>
    finish st1 tool.name executionId maxOut beforeHookOutcome raceOutcome afterHook

/-- ToolSandbox.cancel from part_004 lines 201-211: an active executionId
is aborted, removed from the map, and its cancellation notification fired
once with true returned; an unknown id returns false with no state
change. -/
def cancel (st : State) (executionId : String) : Bool × State :=
  match st.activeExecutions.lookup executionId with
  | some _controller =>
    (true,
     { st with
         activeExecutions :=
           st.activeExecutions.filter (fun p => p.1 != executionId)
         notifications := st.notifications ++ [.cancelled executionId] })
  | none => (false, st)

/-- ToolSandbox.getActiveExecutionIds from part_004 lines 223-225. -/
def getActiveExecutionIds (st : State) : List String :=
  st.activeExecutions.map (fun p => p.1)

/-- ToolSandbox.getActiveCount from part_004 lines 216-218. -/
def getActiveCount (st : State) : Nat :=
  st.activeExecutions.length

end ToolSandbox

/-- One event hitting the promise built by executeWithTimeout, in temporal
order: the wrapped call resolves, the wrapped call rejects, the armed
timer fires, or the abort signal fires. -/
inductive RaceEvent where
  | settleOk (v : JVal)
  | settleErr (message : String)
  | timerFire
  | abortFire
deriving Repr, BEq

/-- Error message of the timeout rejection. -/
def timeoutMessage (timeoutMs : Nat) : String :=
  "Tool execution timed out after " ++ toString timeoutMs ++ "ms"

/-- State of the promise executeWithTimeout returns, together with the
timer and abort-listener registrations its handlers manage. -/
structure RaceState where
  settled : Option (Except String JVal)
  timerArmed : Bool
  listenerOn : Bool

/-- First writer wins: a settled promise ignores later resolutions. -/
def trySettle (st : Option (Except String JVal)) (o : Except String JVal) :
    Option (Except String JVal) :=
  match st with
  | some r => some r
  | none => some o

/-- One event processed against the promise of executeWithTimeout
(part_004 lines 248-284).  The timer handler rejects with the timeout
message (the abort listener stays registered); the abort handler clears
the timer and rejects with the cancellation message, its once flag
removing it; both settlement handlers clear the timer, remove the
listener, and resolve or reject with the wrapped outcome. -/
def raceStep (timeoutMs : Nat) (st : RaceState) (e : RaceEvent) : RaceState :=
  match e with
  | .timerFire =>
    if st.timerArmed then
      { st with
          timerArmed := false
          settled := trySettle st.settled (.error (timeoutMessage timeoutMs)) }
    else st
  | .abortFire =>
    if st.listenerOn then
      { settled := trySettle st.settled (.error "Tool execution was cancelled")
        timerArmed := false
        listenerOn := false }
    else st
  | .settleOk v =>
    { settled := trySettle st.settled (.ok v)
      timerArmed := false
      listenerOn := false }
  | .settleErr m =>
    { settled := trySettle st.settled (.error m)
      timerArmed := false
      listenerOn := false }

/-- The promise state after a temporally ordered list of race events,
starting with the timer armed and the abort listener attached. -/
def runRace (timeoutMs : Nat) (events : List RaceEvent) : RaceState :=
  events.foldl (raceStep timeoutMs) { settled := none, timerArmed := true, listenerOn := true }

/-- Settled outcome of ToolSandbox.executeWithTimeout under the given
event order; none when no event ever settles the promise. -/
def executeWithTimeoutModel (timeoutMs : Nat) (events : List RaceEvent) :
    Option (Except String JVal) :=
  (runRace timeoutMs events).settled

/-- Per-tool mutable usage counters of ToolRegistry (tools.ts lines
164-171). -/
structure UsageStats where
  calls : Nat
  failures : Nat
  totalDuration : Nat
deriving Repr, BEq, DecidableEq

namespace ToolRegistry

/-- ToolRegistry state: the tools map and the usageStats map, both keyed
by tool name, plus the ambient context.  JavaScript Map iteration order is
insertion order, modelled by association lists with unique keys. -/
structure State where
  tools : List (String × ToolModel)
  context : ToolContext
  usageStats : List (String × UsageStats)

/-- Replace the value stored under an existing key of a map, keeping the
insertion position, as JavaScript Map.set does for a present key. -/
def setAssoc (l : List (String × UsageStats)) (k : String) (v : UsageStats) :
    List (String × UsageStats) :=
  l.map (fun p => if p.1 = k then (p.1, v) else p)

/-- ToolRegistry.execute from tools.ts lines 258-287.  The duration
argument is the wall clock elapsed across the awaited tool call
(Date.now() minus startTime).  An unknown name throws the not-found
error.  Otherwise calls is incremented before the call; on a resolved
outcome the duration is added to totalDuration and the result returned;
on a thrown or rejected outcome failures is incremented and the error
rethrown unchanged - the catch path does not touch totalDuration. -/
def execute (reg : State) (name : String) (params : JVal) (duration : Nat) :
    Except String JVal × State :=
  match reg.tools.lookup name with
  | none => (.error ("Tool \"" ++ name ++ "\" not found"), reg)
  | some tool =>
    let stats := (reg.usageStats.lookup name).getD { calls := 0, failures := 0, totalDuration := 0 }
    match tool.executeFn params reg.context with
    | .ok v =>
      let updated := { stats with calls := stats.calls + 1
                                  totalDuration := stats.totalDuration + duration }
      (.ok v, { reg with usageStats := setAssoc reg.usageStats name updated })
    | .error e =>
      let updated := { stats with calls := stats.calls + 1
                                  failures := stats.failures + 1 }
      (.error e, { reg with usageStats := setAssoc reg.usageStats name updated })

/-- Captured-error marker executeBatch stores in a failed slot:
String(error) on a thrown Error renders as "Error: message". -/
def errorMarker (message : String) : JVal :=
  .obj [("error", .str ("Error: " ++ message))]

/-- ToolRegistry.executeBatch from tools.ts lines 292-309: the calls run
through execute strictly one at a time in list order, each slot holding
the resolved value or the captured-error marker, and a failure never
aborts the remaining calls.  durations supplies the wall clock of each
call in order. -/
def executeBatch (reg : State) (calls : List (String × JVal))
    (durations : List Nat) : List JVal × State :=
  match calls with
  | [] => ([], reg)
  | (name, params) :: rest =>
    let d := durations.headD 0
    let step :=
      match execute reg name params d with
      | (.ok v, reg1) => (v, reg1)
      | (.error e, reg1) => (errorMarker e, reg1)
    let tailRun := executeBatch step.2 rest durations.tail
    (step.1 :: tailRun.1, tailRun.2)

end ToolRegistry

/-- Execute capability installed by createSecureTool (part_004 lines
303-333), the closure the registry invokes for a security-wrapped tool:
the guard allow check runs first (a blocked tool throws the not-allowed
error before anything else), then, when the tool declares a schema, guard
parameter validation (an invalid value throwing the validation error,
a valid one substituting the validated data for params), and only then is
the call delegated to ToolSandbox.execute.  The sandbox arguments carry
the settled asynchronous outcomes as in ToolSandbox.executeRun. -/
def secureToolExecute (store : ArrayStore) (guardCfg : ToolSecurityConfig)
    (st : ToolSandbox.State) (tool : ToolModel) (params : JVal)
    (ctx : ToolContext) (opts : ToolSandbox.RunOptions) (now : Nat)
    (beforeHookOutcome : Option (Except String Unit))
    (raceOutcome : Except String JVal)
    (afterHook : Option (Option JVal → Option String → Except String Unit)) :
    Except String JVal × ToolSandbox.State :=
  if !(ToolGuard.isToolAllowed store guardCfg tool.name) then
    (.error ("Tool \"" ++ tool.name ++ "\" is not allowed"), st)
  else
    match tool.schema with
    | some schema =>
      let validation := ToolGuard.validateParams guardCfg params schema
      if !validation.success then
        (.error ("Validation failed: " ++ validation.error.getD ""), st)
      else
        ToolSandbox.executeRun st tool (validation.data.getD .undef) ctx opts
          now beforeHookOutcome raceOutcome afterHook
    | none =>
      ToolSandbox.executeRun st tool params ctx opts now beforeHookOutcome
        raceOutcome afterHook

/-! Helper lemmas. -/

/-- nestProto always produces a plain object. -/
lemma nestProto_isObjectTyped (k : Nat) : isObjectTyped (nestProto k) = true := by
  cases k <;> simp [nestProto, isObjectTyped]

/-- The dangerous key of nestProto k sits k levels down, so a scan with
budget f finds it exactly when k < f. -/
lemma hasPPAux_nestProto (k : Nat) : ∀ f : Nat, hasPPAux f (nestProto k) = decide (k < f) := by
  induction k with
  | zero =>
    intro f
    cases f with
    | zero => rfl
    | succ f => simp [hasPPAux, nestProto, dangerousKeys]
  | succ k ih =>
    intro f
    cases f with
    | zero => rfl
    | succ f =>
      simp [hasPPAux, nestProto, dangerousKeys, nestProto_isObjectTyped, ih f,
        Nat.succ_lt_succ_iff]
/-- C7: with the guard enabled, parseToolArguments rejects the three
prototype-pollution payloads with the malicious-content error, accepts
the plain object, and the dangerous-key scan, started at depth 0, finds a
dangerous key inside an object nested k levels deep exactly when k is at
most 10 - keys below that depth are treated as safe. -/
theorem guard_parse_rejects_pollution (cfg : ToolSecurityConfig)
    (hEnabled : cfg.enabled = true) :
    ToolGuard.parseToolArguments cfg (.value jProto1) =
      .ok { success := false
            error := some "Invalid tool arguments: potentially malicious content detected" } ∧
    ToolGuard.parseToolArguments cfg (.value jProto2) =
      .ok { success := false
            error := some "Invalid tool arguments: potentially malicious content detected" } ∧
    ToolGuard.parseToolArguments cfg (.value jProto3) =
      .ok { success := false
            error := some "Invalid tool arguments: potentially malicious content detected" } ∧
    ToolGuard.parseToolArguments cfg (.value jPlain) =
      .ok { success := true, data := some jPlain } ∧
    (∀ k : Nat,
      ToolGuard.parseToolArguments cfg (.value (nestProto k)) =
        (if k ≤ 10 then
          .ok { success := false
                error := some "Invalid tool arguments: potentially malicious content detected" }
         else .ok { success := true, data := some (nestProto k) })) := by
  refine ⟨?_, ?_, ?_, ?_, ?_⟩
  · simp [ToolGuard.parseToolArguments, hEnabled, hasPrototypePollution, jProto1,
      hasPPAux, dangerousKeys, isObjectTyped]
  · simp [ToolGuard.parseToolArguments, hEnabled, hasPrototypePollution, jProto2,
      hasPPAux, dangerousKeys, isObjectTyped]
  · simp [ToolGuard.parseToolArguments, hEnabled, hasPrototypePollution, jProto3,
      hasPPAux, dangerousKeys, isObjectTyped]
  · simp [ToolGuard.parseToolArguments, hEnabled, hasPrototypePollution, jPlain,
      hasPPAux, dangerousKeys, isObjectTyped]
  · intro k
    have hpp : hasPrototypePollution (nestProto k) 0 = decide (k < 11) := by
      simpa [hasPrototypePollution] using hasPPAux_nestProto k 11
    by_cases hk : k ≤ 10
    · have : hasPrototypePollution (nestProto k) 0 = true := by
        rw [hpp]; simpa using Nat.lt_succ_of_le hk
      simp [ToolGuard.parseToolArguments, hEnabled, this, hk]
    · have : hasPrototypePollution (nestProto k) 0 = false := by
        rw [hpp]; simpa using fun h => hk (Nat.lt_succ_iff.mp h)
      have hobj : (match nestProto k with
        | .obj _ => true | .buffer _ => true | _ => false) = true := by
        cases k <;> simp [nestProto]
      simp [ToolGuard.parseToolArguments, hEnabled, this, hk, hobj]

/-- Witness for guard_parse_rejects_pollution at the default guard
configuration, including the depth bound evaluated at level 11. -/
theorem guard_parse_rejects_pollution_witness :
    defaultGuardConfig.enabled = true ∧
    ToolGuard.parseToolArguments defaultGuardConfig (.value jPlain) =
      .ok { success := true, data := some jPlain } ∧
    ToolGuard.parseToolArguments defaultGuardConfig (.value (nestProto 11)) =
      .ok { success := true, data := some (nestProto 11) } :=
  ⟨rfl,
   (guard_parse_rejects_pollution defaultGuardConfig rfl).2.2.2.1,
   by simpa using (guard_parse_rejects_pollution defaultGuardConfig rfl).2.2.2.2 11⟩

/-- C8 counterexample: after pushing "x" onto the deniedTools list of the
object getConfig returned, a subsequent isToolAllowed "x" flips from true
to false - the returned config is a shallow copy sharing the deniedTools
array with the internal config, refuting read-by-value as claimed. -/
theorem guard_getConfig_mutation_changes_guard_cex :
    ToolGuard.isToolAllowed emptyStore defaultGuardConfig "x" = true ∧
    ToolGuard.isToolAllowed
      (arrayPush emptyStore (ToolGuard.getConfig defaultGuardConfig).deniedToolsRef "x")
      defaultGuardConfig "x" = false := by
  constructor <;> rfl

/-- C8 amended: getConfig copies every top-level field by value (the
returned record equals the internal one field for field), but the
deniedTools array is shared by reference: while the guard is enabled and
the reference is live, pushing a name onto the returned config deniedTools
list makes a subsequent isToolAllowed for that name return false. -/
theorem guard_getConfig_shared_denied_list (store : ArrayStore)
    (cfg : ToolSecurityConfig) (name : String)
    (hEnabled : cfg.enabled = true)
    (hRef : cfg.deniedToolsRef < store.arrays.length) :
    ToolGuard.getConfig cfg = cfg ∧
    ToolGuard.isToolAllowed
      (arrayPush store (ToolGuard.getConfig cfg).deniedToolsRef name) cfg name = false := by
  constructor
  · rfl
  · have hget : arrayGet (arrayPush store cfg.deniedToolsRef name) cfg.deniedToolsRef =
        arrayGet store cfg.deniedToolsRef ++ [name] := by
      simp [arrayGet, arrayPush, List.getD, List.getElem?_set_self, hRef]
    have hmem : name ∈ arrayGet (arrayPush store cfg.deniedToolsRef name)
        cfg.deniedToolsRef := by
      simp [hget]
    simp [ToolGuard.isToolAllowed, ToolGuard.getConfig, hEnabled, hmem]

/-- Witness for guard_getConfig_shared_denied_list at the default
configuration over a one-array store. -/
theorem guard_getConfig_shared_denied_list_witness :
    defaultGuardConfig.enabled = true ∧
    defaultGuardConfig.deniedToolsRef < emptyStore.arrays.length ∧
    (ToolGuard.getConfig defaultGuardConfig = defaultGuardConfig ∧
     ToolGuard.isToolAllowed
       (arrayPush emptyStore (ToolGuard.getConfig defaultGuardConfig).deniedToolsRef "y")
       defaultGuardConfig "y" = false) :=
  ⟨rfl, by decide,
   guard_getConfig_shared_denied_list emptyStore defaultGuardConfig "y" rfl (by decide)⟩

/-- Tool that always rejects. -/
def toolAlwaysFails : ToolModel :=
  { name := "t", description := "failing tool", schema := none
    executeFn := fun _ _ => .error "boom" }

/-- Tool that echoes its params. -/
def toolEcho : ToolModel :=
  { name := "ok", description := "echo tool", schema := none
    executeFn := fun p _ => .ok p }

/-- Registry holding the echo tool and the failing tool, both with zeroed
usage counters. -/
def regTwo : ToolRegistry.State :=
  { tools := [("ok", toolEcho), ("t", toolAlwaysFails)]
    context := []
    usageStats := [("ok", ⟨0, 0, 0⟩), ("t", ⟨0, 0, 0⟩)] }

/-- Updating an existing key of the stats map is observed by lookup. -/
lemma lookup_setAssoc_self (l : List (String × UsageStats)) (k : String)
    (v w : UsageStats) (h : l.lookup k = some w) :
    (ToolRegistry.setAssoc l k v).lookup k = some v := by
  induction l with
  | nil => simp [List.lookup] at h
  | cons p t ih =>
    obtain ⟨a, b⟩ := p
    by_cases hk : a = k
    · subst hk
      simp only [ToolRegistry.setAssoc, List.map_cons]
      simp [List.lookup]
    · have h2 : (k == a) = false := by simp [Ne.symm hk]
      have ht : List.lookup k t = some w := by simpa [List.lookup, h2] using h
      have hsplit : ToolRegistry.setAssoc ((a, b) :: t) k v =
          (a, b) :: ToolRegistry.setAssoc t k v := by
        simp [ToolRegistry.setAssoc, hk]
      rw [hsplit]
      simpa [List.lookup, h2] using ih ht

/-- C2 counterexample: a failing call with wall-clock duration 5 leaves
totalDuration at 0, while the claim demands every call to add its
duration regardless of outcome - the catch path of ToolRegistry.execute
never touches totalDuration. -/
theorem registry_failed_call_skips_duration_cex :
    (ToolRegistry.execute regTwo "t" .null 5).2.usageStats.lookup "t" =
      some ⟨1, 1, 0⟩ ∧
    ¬ (ToolRegistry.execute regTwo "t" .null 5).2.usageStats.lookup "t" =
      some ⟨1, 1, 5⟩ := by
  constructor
  · rfl
  · decide

/-- C2 amended: every execute on a registered tool increments calls by
exactly one; failures is incremented exactly when the outcome is thrown or
rejected; the wall-clock duration is added to totalDuration only on a
successful outcome, and a failed call leaves totalDuration unchanged.
The underlying result or error is passed through unchanged. -/
theorem registry_execute_stats (reg : ToolRegistry.State) (name : String)
    (params : JVal) (duration : Nat) (tool : ToolModel) (before : UsageStats)
    (hTool : reg.tools.lookup name = some tool)
    (hStats : reg.usageStats.lookup name = some before) :
    (∀ v, tool.executeFn params reg.context = .ok v →
      (ToolRegistry.execute reg name params duration).1 = .ok v ∧
      (ToolRegistry.execute reg name params duration).2.usageStats.lookup name =
        some { calls := before.calls + 1
               failures := before.failures
               totalDuration := before.totalDuration + duration }) ∧
    (∀ e, tool.executeFn params reg.context = .error e →
      (ToolRegistry.execute reg name params duration).1 = .error e ∧
      (ToolRegistry.execute reg name params duration).2.usageStats.lookup name =
        some { calls := before.calls + 1
               failures := before.failures + 1
               totalDuration := before.totalDuration }) := by
  constructor
  · intro v hv
    simp only [ToolRegistry.execute, hTool, hStats, hv, Option.getD_some]
    exact ⟨trivial, lookup_setAssoc_self _ _ _ _ hStats⟩
  · intro e he
    simp only [ToolRegistry.execute, hTool, hStats, he, Option.getD_some]
    exact ⟨trivial, lookup_setAssoc_self _ _ _ _ hStats⟩

/-- Witness for registry_execute_stats: a successful echo call at duration
7 and a failing call at duration 5 in the two-tool registry. -/
theorem registry_execute_stats_witness :
    regTwo.tools.lookup "ok" = some toolEcho ∧
    regTwo.usageStats.lookup "ok" = some ⟨0, 0, 0⟩ ∧
    regTwo.tools.lookup "t" = some toolAlwaysFails ∧
    regTwo.usageStats.lookup "t" = some ⟨0, 0, 0⟩ ∧
    ((ToolRegistry.execute regTwo "ok" (.num 1) 7).1 = .ok (.num 1) ∧
     (ToolRegistry.execute regTwo "ok" (.num 1) 7).2.usageStats.lookup "ok" =
       some { calls := 1, failures := 0, totalDuration := 7 }) ∧
    ((ToolRegistry.execute regTwo "t" .null 5).1 = .error "boom" ∧
     (ToolRegistry.execute regTwo "t" .null 5).2.usageStats.lookup "t" =
       some { calls := 1, failures := 1, totalDuration := 5 - 5 }) :=
  ⟨rfl, rfl, rfl, rfl,
   (registry_execute_stats regTwo "ok" (.num 1) 7 toolEcho ⟨0, 0, 0⟩ rfl rfl).1
     (.num 1) rfl,
   (registry_execute_stats regTwo "t" .null 5 toolAlwaysFails ⟨0, 0, 0⟩ rfl rfl).2
     "boom" rfl⟩

/-- C9: executeBatch returns exactly one result slot per call, in order,
and a failing call leaves a captured-error marker in its own slot while
later calls still run - shown generally for the length invariant and on
the scenario echo(1), missing tool x, echo(2), whose middle slot holds the
not-found marker while slots 0 and 2 hold the successful values. -/
theorem registry_executeBatch_isolation :
    (∀ (reg : ToolRegistry.State) (calls : List (String × JVal))
       (durations : List Nat),
      (ToolRegistry.executeBatch reg calls durations).1.length = calls.length) ∧
    (ToolRegistry.executeBatch regTwo
        [("ok", .num 1), ("x", .null), ("ok", .num 2)] []).1 =
      [.num 1, ToolRegistry.errorMarker "Tool \"x\" not found", .num 2] := by
  constructor
  · intro reg calls durations
    induction calls generalizing reg durations with
    | nil => simp [ToolRegistry.executeBatch]
    | cons c rest ih =>
      obtain ⟨name, params⟩ := c
      rcases hx : ToolRegistry.execute reg name params (durations.headD 0) with ⟨r, reg1⟩
      cases r <;> simp [ToolRegistry.executeBatch, hx, ih]
  · rfl

/-- A settled promise is unchanged by any later race event. -/
lemma raceStep_preserves_settled (timeoutMs : Nat) (st : RaceState)
    (e : RaceEvent) (h : st.settled.isSome = true) :
    (raceStep timeoutMs st e).settled = st.settled := by
  rcases hs : st.settled with _ | r
  · rw [hs] at h; simp at h
  · cases e <;> simp [raceStep, trySettle, hs] <;> split <;> simp [hs]

/-- Folding further events over a settled promise changes nothing. -/
lemma foldl_preserves_settled (timeoutMs : Nat) (events : List RaceEvent)
    (st : RaceState) (h : st.settled.isSome = true) :
    (events.foldl (raceStep timeoutMs) st).settled = st.settled := by
  induction events generalizing st with
  | nil => rfl
  | cons e rest ih =>
    have h1 := raceStep_preserves_settled timeoutMs st e h
    have h2 : ((raceStep timeoutMs st e).settled).isSome = true := by
      rw [h1]; exact h
    simp only [List.foldl_cons]
    rw [ih _ h2, h1]

/-- C3: when the timer fires before the wrapped call settles, the race
rejects with the timeout message and the eventually-available result is
never delivered, whatever events follow; moreover the first settlement is
the single winner - once the promise is settled, any later event (a late
settle, timer, or abort) leaves the outcome unchanged. -/
theorem sandbox_timeout_race_wins (timeoutMs : Nat) (post : List RaceEvent)
    (events : List RaceEvent) (e : RaceEvent)
    (hSettled : (executeWithTimeoutModel timeoutMs events).isSome = true) :
    executeWithTimeoutModel timeoutMs (RaceEvent.timerFire :: post) =
      some (.error (timeoutMessage timeoutMs)) ∧
    (∀ v : JVal, executeWithTimeoutModel timeoutMs (RaceEvent.timerFire :: post) ≠
      some (.ok v)) ∧
    executeWithTimeoutModel timeoutMs (events ++ [e]) =
      executeWithTimeoutModel timeoutMs events := by
  have hFirst : executeWithTimeoutModel timeoutMs (RaceEvent.timerFire :: post) =
      some (.error (timeoutMessage timeoutMs)) := by
    have hstep : raceStep timeoutMs
        { settled := none, timerArmed := true, listenerOn := true } .timerFire =
        { settled := some (.error (timeoutMessage timeoutMs)), timerArmed := false,
          listenerOn := true } := by
      simp [raceStep, trySettle]
    simp only [executeWithTimeoutModel, runRace, List.foldl_cons, hstep]
    exact foldl_preserves_settled timeoutMs post _ rfl
  refine ⟨hFirst, ?_, ?_⟩
  · intro v hv
    rw [hFirst] at hv
    simp at hv
  · simp only [executeWithTimeoutModel, runRace, List.foldl_append, List.foldl_cons,
      List.foldl_nil]
    exact raceStep_preserves_settled timeoutMs _ e hSettled

/-- Witness for sandbox_timeout_race_wins: a 5 ms timeout firing before a
late successful settlement, the late settlement arriving after. -/
theorem sandbox_timeout_race_wins_witness :
    (executeWithTimeoutModel 5 [.settleOk (.num 1)]).isSome = true ∧
    executeWithTimeoutModel 5 [RaceEvent.timerFire, .settleOk (.num 1)] =
      some (.error (timeoutMessage 5)) ∧
    executeWithTimeoutModel 5 ([.settleOk (.num 1)] ++ [RaceEvent.timerFire]) =
      executeWithTimeoutModel 5 [.settleOk (.num 1)] :=
  ⟨rfl,
   (sandbox_timeout_race_wins 5 [.settleOk (.num 1)] [.settleOk (.num 1)]
     .timerFire rfl).1,
   (sandbox_timeout_race_wins 5 [.settleOk (.num 1)] [.settleOk (.num 1)]
     .timerFire rfl).2.2⟩

/-- C4: with sandboxing enabled and the active-execution set already at
the maxConcurrentCalls ceiling, execute rejects immediately with the
concurrency error: the state equation shows nothing but the
concurrency-exceeded notification changes - no executionId is registered,
the execution counter does not move, the in-flight executions are left
untouched, and the wrapped tool is never started. -/
theorem sandbox_concurrency_gate (st : ToolSandbox.State) (tool : ToolModel)
    (params : JVal) (ctx : ToolContext) (opts : ToolSandbox.RunOptions)
    (now : Nat) (bh : Option (Except String Unit)) (race : Except String JVal)
    (ah : Option (Option JVal → Option String → Except String Unit))
    (hEnabled : st.config.enabled = true)
    (hSandbox : st.config.sandboxExecution = true)
    (hFull : st.config.maxConcurrentCalls ≤ st.activeExecutions.length) :
    ToolSandbox.executeRun st tool params ctx opts now bh race ah =
      (.error "Too many concurrent tool executions",
       { st with notifications := st.notifications ++
           [.concurrencyExceeded tool.name st.activeExecutions.length] }) := by
  simp [ToolSandbox.executeRun, ToolSandbox.start, hEnabled, hSandbox, hFull]

/-- Sandbox configuration with a concurrency ceiling of one. -/
def sandboxCfgOne : ToolSecurityConfig :=
  { enabled := true
    validateParams := true
    sandboxExecution := true
    maxExecutionTime := 30000
    maxConcurrentCalls := 1
    deniedToolsRef := 0
    allowedToolsRef := none }

/-- Sandbox state with one in-flight execution filling the ceiling. -/
def sandboxBusy : ToolSandbox.State :=
  { config := sandboxCfgOne
    activeExecutions := [("exec-1-0", false)]
    executionCount := 1
    notifications := [] }

/-- Witness for sandbox_concurrency_gate: with maxConcurrentCalls one and
one in-flight call, a second call is rejected and the state equation
holds. -/
theorem sandbox_concurrency_gate_witness :
    sandboxBusy.config.enabled = true ∧
    sandboxBusy.config.sandboxExecution = true ∧
    sandboxBusy.config.maxConcurrentCalls ≤ sandboxBusy.activeExecutions.length ∧
    ToolSandbox.executeRun sandboxBusy toolEcho .null [] {} 0 none (.ok .null) none =
      (.error "Too many concurrent tool executions",
       { sandboxBusy with notifications := sandboxBusy.notifications ++
           [.concurrencyExceeded toolEcho.name sandboxBusy.activeExecutions.length] }) :=
  ⟨rfl, rfl, by decide,
   sandbox_concurrency_gate sandboxBusy toolEcho .null [] {} 0 none (.ok .null)
     none rfl rfl (by decide)⟩

/-- Everything surviving a filter satisfies the filtering predicate. -/
lemma all_filter_self (l : List (String × Bool)) (f : String × Bool → Bool) :
    ((l.filter f).all f) = true := by
  simp only [List.all_eq_true]
  intro p hp
  exact (List.mem_filter.mp hp).2

/-- C6: the finally path of ToolSandbox.execute always deletes the
executionId: whatever the pre-hook outcome, race outcome (success,
failure, timeout or cancellation error), and post-hook behavior, the state
after finish holds no active entry under that executionId; composed with
the synchronous prefix, a call that registered an executionId never leaves
it in the active set (getActiveExecutionIds) once the call completes. -/
theorem sandbox_execution_id_cleanup :
    (∀ (st : ToolSandbox.State) (toolName executionId : String) (maxOut : Nat)
       (bh : Option (Except String Unit)) (race : Except String JVal)
       (ah : Option (Option JVal → Option String → Except String Unit)),
      ((ToolSandbox.finish st toolName executionId maxOut bh race ah).2.activeExecutions.all
        (fun p => p.1 != executionId)) = true) ∧
    (∀ (st : ToolSandbox.State) (tool : ToolModel) (params : JVal)
       (ctx : ToolContext) (opts : ToolSandbox.RunOptions) (now : Nat)
       (bh : Option (Except String Unit)) (race : Except String JVal)
       (ah : Option (Option JVal → Option String → Except String Unit))
       (executionId : String) (maxOut timeoutMs : Nat),
      (ToolSandbox.start st tool.name opts now).1 =
        .started executionId maxOut timeoutMs →
      executionId ∉ ToolSandbox.getActiveExecutionIds
        (ToolSandbox.executeRun st tool params ctx opts now bh race ah).2) := by
  constructor
  · intro st toolName executionId maxOut bh race ah
    simp only [ToolSandbox.finish]
    exact all_filter_self st.activeExecutions (fun p => p.1 != executionId)
  · intro st tool params ctx opts now bh race ah executionId maxOut timeoutMs h
    rcases hs : ToolSandbox.start st tool.name opts now with ⟨so, st1⟩
    rw [hs] at h
    simp only at h
    subst h
    simp only [ToolSandbox.executeRun, hs]
    have hall := all_filter_self st1.activeExecutions (fun p => p.1 != executionId)
    simp only [ToolSandbox.finish, ToolSandbox.getActiveExecutionIds, List.all_eq_true] at hall ⊢
    intro hmem
    rcases List.mem_map.mp hmem with ⟨p, hp, hp1⟩
    have := hall p hp
    simp [hp1] at this

/-- Sandbox state with room for one execution and none in flight. -/
def sandboxFree : ToolSandbox.State :=
  { config := sandboxCfgOne
    activeExecutions := []
    executionCount := 0
    notifications := [] }

/-- Witness for sandbox_execution_id_cleanup: a concrete started
execution whose id is gone from the active set after completion, and a
concrete finish leaving no entry under its id. -/
theorem sandbox_execution_id_cleanup_witness :
    (ToolSandbox.start sandboxFree toolEcho.name {} 0).1 =
      .started "exec-1-0" 1048576 30000 ∧
    "exec-1-0" ∉ ToolSandbox.getActiveExecutionIds
      (ToolSandbox.executeRun sandboxFree toolEcho .null [] {} 0 none
        (.ok .null) none).2 ∧
    ((ToolSandbox.finish sandboxBusy "ok" "exec-1-0" 10 none (.ok .null)
        none).2.activeExecutions.all (fun p => p.1 != "exec-1-0")) = true :=
  ⟨rfl,
   sandbox_execution_id_cleanup.2 sandboxFree toolEcho .null [] {} 0 none
     (.ok .null) none "exec-1-0" 1048576 30000 rfl,
   sandbox_execution_id_cleanup.1 sandboxBusy "ok" "exec-1-0" 10 none
     (.ok .null) none⟩

/-- C5: estimateSize computes the documented per-type sizes (strings two
bytes per character, numbers 8, booleans 4, Buffers their byte length, a
JSON-unserializable value 0), and a successfully settled sandboxed call
whose estimated result size strictly exceeds the effective bound - the
per-call override or the 1 MiB default - fails with the size-limit error,
so the oversized value itself is never returned to the caller. -/
theorem sandbox_output_size_limit (st : ToolSandbox.State) (tool : ToolModel)
    (params : JVal) (ctx : ToolContext) (opts : ToolSandbox.RunOptions)
    (now : Nat) (v : JVal) (s : String) (n : Int) (b : Bool) (bytes : List Nat)
    (hEnabled : st.config.enabled = true)
    (hSandbox : st.config.sandboxExecution = true)
    (hRoom : st.activeExecutions.length < st.config.maxConcurrentCalls)
    (hSize : estimateSize v > ToolSandbox.jsOrNat opts.maxOutputSize (1024 * 1024)) :
    estimateSize (.str s) = s.length * 2 ∧
    estimateSize (.num n) = 8 ∧
    estimateSize (.bool b) = 4 ∧
    estimateSize (.buffer bytes) = bytes.length ∧
    estimateSize (.bigint n) = 0 ∧
    (ToolSandbox.executeRun st tool params ctx opts now none (.ok v) none).1 =
      .error "Tool output exceeded maximum size limit" := by
  have hNotFull : ¬ st.activeExecutions.length ≥ st.config.maxConcurrentCalls :=
    Nat.not_le.mpr hRoom
  refine ⟨rfl, rfl, rfl, rfl, ?_, ?_⟩
  · simp [estimateSize, jsonStringify]
  · simp [ToolSandbox.executeRun, ToolSandbox.start, ToolSandbox.finish,
      hEnabled, hSandbox, hNotFull, hSize]

/-- Witness for sandbox_output_size_limit: a 5-character string result
(estimated 10 bytes) against a per-call override of 4 bytes. -/
theorem sandbox_output_size_limit_witness :
    sandboxFree.config.enabled = true ∧
    sandboxFree.config.sandboxExecution = true ∧
    sandboxFree.activeExecutions.length < sandboxFree.config.maxConcurrentCalls ∧
    estimateSize (.str "hello") >
      ToolSandbox.jsOrNat (some 4 : Option Nat) (1024 * 1024) ∧
    (ToolSandbox.executeRun sandboxFree toolEcho .null []
        { maxOutputSize := some 4 } 0 none (.ok (.str "hello")) none).1 =
      .error "Tool output exceeded maximum size limit" :=
  ⟨rfl, rfl, by decide, by decide,
   (sandbox_output_size_limit sandboxFree toolEcho .null []
     { maxOutputSize := some 4 } 0 (.str "hello") "" 0 false []
     rfl rfl (by decide) (by decide)).2.2.2.2.2⟩

/-- A key is in the lookup domain of an association list exactly when some
pair carries it. -/
lemma lookup_isSome_iff_mem_keys (l : List (String × Bool)) (a : String) :
    (l.lookup a).isSome = true ↔ a ∈ l.map (fun p => p.1) := by
  induction l with
  | nil => simp [List.lookup]
  | cons p t ih =>
    obtain ⟨k, b⟩ := p
    by_cases hk : a = k
    · subst hk
      simp [List.lookup]
    · have h2 : (a == k) = false := by simp [hk]
      simp [List.lookup, h2, hk, ih]

/-- Filtering out a key removes it from the key list. -/
lemma not_mem_keys_filter (l : List (String × Bool)) (a : String) :
    a ∉ (l.filter (fun p => p.1 != a)).map (fun p => p.1) := by
  intro hmem
  rcases List.mem_map.mp hmem with ⟨p, hp, hp1⟩
  have := (List.mem_filter.mp hp).2
  simp [hp1] at this

/-- A filter keeping every element changes nothing. -/
lemma filter_eq_self_of_all (l : List (String × Bool)) (a : String)
    (h : a ∉ l.map (fun p => p.1)) :
    l.filter (fun p => p.1 != a) = l := by
  induction l with
  | nil => rfl
  | cons p t ih =>
    simp only [List.map_cons, List.mem_cons] at h
    push_neg at h
    have hne : (p.1 != a) = true := by simpa using fun hc => h.1 hc.symm
    simp [List.filter_cons, hne, ih h.2]

/-- Removing a key present exactly once shortens the list by one. -/
lemma filter_length_of_nodup (l : List (String × Bool)) (a : String)
    (hNodup : (l.map (fun p => p.1)).Nodup)
    (hMem : a ∈ l.map (fun p => p.1)) :
    (l.filter (fun p => p.1 != a)).length + 1 = l.length := by
  induction l with
  | nil => simp at hMem
  | cons p t ih =>
    simp only [List.map_cons, List.nodup_cons] at hNodup
    rcases List.mem_cons.mp hMem with hk | hk
    · have hk2 : a = p.1 := by simpa using hk
      have hfa : (p.1 != a) = false := by simp [hk2]
      have hrest : a ∉ t.map (fun q => q.1) := by
        rw [hk2]
        exact hNodup.1
      simp [List.filter_cons, hfa, filter_eq_self_of_all t a hrest]
    · have hne : ¬ p.1 = a := by
        intro hc
        rw [hc] at hNodup
        exact hNodup.1 hk
      have hfa : (p.1 != a) = true := by simpa using hne
      simp only [List.filter_cons, hfa, if_true, List.length_cons]
      rw [← ih hNodup.2 hk]

/-- C10: cancelling an active executionId aborts it, synchronously removes
it from the active set (it is gone from getActiveExecutionIds and the
active count drops by one), fires the cancelled notification exactly once,
and returns true; cancelling an id that is not active - including a second
cancel of the same id - returns false and performs no state change. -/
theorem sandbox_cancel_semantics (st : ToolSandbox.State)
    (executionId other : String)
    (hActive : executionId ∈ ToolSandbox.getActiveExecutionIds st)
    (hNodup : (ToolSandbox.getActiveExecutionIds st).Nodup)
    (hInactive : other ∉ ToolSandbox.getActiveExecutionIds st) :
    (ToolSandbox.cancel st executionId).1 = true ∧
    executionId ∉
      ToolSandbox.getActiveExecutionIds (ToolSandbox.cancel st executionId).2 ∧
    ToolSandbox.getActiveCount (ToolSandbox.cancel st executionId).2 + 1 =
      ToolSandbox.getActiveCount st ∧
    (ToolSandbox.cancel st executionId).2.notifications =
      st.notifications ++ [.cancelled executionId] ∧
    ToolSandbox.cancel (ToolSandbox.cancel st executionId).2 executionId =
      (false, (ToolSandbox.cancel st executionId).2) ∧
    ToolSandbox.cancel st other = (false, st) := by
  have hSome : (st.activeExecutions.lookup executionId).isSome = true :=
    (lookup_isSome_iff_mem_keys st.activeExecutions executionId).mpr hActive
  rcases hl : st.activeExecutions.lookup executionId with _ | c
  · rw [hl] at hSome
    simp at hSome
  · have hNone2 : ((st.activeExecutions.filter
        (fun p => p.1 != executionId)).lookup executionId) = none := by
      rcases hl2 : (st.activeExecutions.filter
          (fun p => p.1 != executionId)).lookup executionId with _ | d
      · exact hl2
      · have : executionId ∈ (st.activeExecutions.filter
            (fun p => p.1 != executionId)).map (fun p => p.1) :=
          (lookup_isSome_iff_mem_keys _ _).mp (by rw [hl2]; rfl)
        exact absurd this (not_mem_keys_filter _ _)
    have hNoneOther : st.activeExecutions.lookup other = none := by
      rcases hlo : st.activeExecutions.lookup other with _ | d
      · rfl
      · have : other ∈ st.activeExecutions.map (fun p => p.1) :=
          (lookup_isSome_iff_mem_keys _ _).mp (by rw [hlo]; rfl)
        exact absurd this hInactive
    refine ⟨?_, ?_, ?_, ?_, ?_, ?_⟩
    · simp [ToolSandbox.cancel, hl]
    · simp only [ToolSandbox.cancel, hl, ToolSandbox.getActiveExecutionIds]
      exact not_mem_keys_filter st.activeExecutions executionId
    · simp only [ToolSandbox.cancel, hl, ToolSandbox.getActiveCount]
      exact filter_length_of_nodup st.activeExecutions executionId hNodup hActive
    · simp [ToolSandbox.cancel, hl]
    · simp [ToolSandbox.cancel, hl, hNone2]
    · simp [ToolSandbox.cancel, hNoneOther]

/-- Witness for sandbox_cancel_semantics: the single in-flight execution
exec-1-0 is cancelled once (true, removed, one notification), a second
cancel and a cancel of an unknown id return false without changes. -/
theorem sandbox_cancel_semantics_witness :
    ("exec-1-0" ∈ ToolSandbox.getActiveExecutionIds sandboxBusy ∧
     (ToolSandbox.getActiveExecutionIds sandboxBusy).Nodup ∧
     "nope" ∉ ToolSandbox.getActiveExecutionIds sandboxBusy) ∧
    (ToolSandbox.cancel sandboxBusy "exec-1-0").1 = true ∧
    (ToolSandbox.cancel sandboxBusy "exec-1-0").2.notifications =
      sandboxBusy.notifications ++ [.cancelled "exec-1-0"] ∧
    ToolSandbox.cancel sandboxBusy "nope" = (false, sandboxBusy) :=
  ⟨⟨by decide, by decide, by decide⟩,
   (sandbox_cancel_semantics sandboxBusy "exec-1-0" "nope" (by decide)
     (by decide) (by decide)).1,
   (sandbox_cancel_semantics sandboxBusy "exec-1-0" "nope" (by decide)
     (by decide) (by decide)).2.2.2.1,
   (sandbox_cancel_semantics sandboxBusy "exec-1-0" "nope" (by decide)
     (by decide) (by decide)).2.2.2.2.2⟩

/-- A failed validation always carries the fixed guard error text. -/
lemma validateParams_error_of_failure (cfg : ToolSecurityConfig)
    (params : JVal) (schema : ZodSchemaModel)
    (h : (ToolGuard.validateParams cfg params schema).success = false) :
    (ToolGuard.validateParams cfg params schema).error =
      some "Parameter validation failed" := by
  unfold ToolGuard.validateParams at h ⊢
  by_cases hb : (!(cfg.enabled && cfg.validateParams)) = true
  · rw [if_pos hb] at h
    simp at h
  · rw [if_neg hb] at h ⊢
    cases hs : schema params with
    | error issues => simp [hs]
    | ok d =>
      rw [hs] at h
      simp at h

/-- C1: the execute capability installed by createSecureTool - the closure
the registry invokes when executing a security-wrapped tool - checks the
guard allow list first, throwing the not-allowed error with the sandbox
untouched (the wrapped execute capability is never started) for a blocked
name; for an allowed tool with a declared schema it next runs guard
validation, throwing the validation error with the sandbox untouched on
failure and substituting the validated data for params on success; and
only after those gates does it delegate to ToolSandbox.execute. -/
theorem secure_tool_execution_path (store : ArrayStore)
    (cfg : ToolSecurityConfig) (st : ToolSandbox.State) (tool : ToolModel)
    (params : JVal) (ctx : ToolContext) (opts : ToolSandbox.RunOptions)
    (now : Nat) (bh : Option (Except String Unit)) (race : Except String JVal)
    (ah : Option (Option JVal → Option String → Except String Unit)) :
    (ToolGuard.isToolAllowed store cfg tool.name = false →
      secureToolExecute store cfg st tool params ctx opts now bh race ah =
        (.error ("Tool \"" ++ tool.name ++ "\" is not allowed"), st)) ∧
    (∀ schema, tool.schema = some schema →
      ToolGuard.isToolAllowed store cfg tool.name = true →
      (ToolGuard.validateParams cfg params schema).success = false →
      secureToolExecute store cfg st tool params ctx opts now bh race ah =
        (.error "Validation failed: Parameter validation failed", st)) ∧
    (∀ schema, tool.schema = some schema →
      ToolGuard.isToolAllowed store cfg tool.name = true →
      (ToolGuard.validateParams cfg params schema).success = true →
      secureToolExecute store cfg st tool params ctx opts now bh race ah =
        ToolSandbox.executeRun st tool
          ((ToolGuard.validateParams cfg params schema).data.getD .undef)
          ctx opts now bh race ah) ∧
    (tool.schema = none →
      ToolGuard.isToolAllowed store cfg tool.name = true →
      secureToolExecute store cfg st tool params ctx opts now bh race ah =
        ToolSandbox.executeRun st tool params ctx opts now bh race ah) := by
  refine ⟨?_, ?_, ?_, ?_⟩
  · intro hBlocked
    simp [secureToolExecute, hBlocked]
  · intro schema hSchema hAllowed hInvalid
    have hErr := validateParams_error_of_failure cfg params schema hInvalid
    simp [secureToolExecute, hAllowed, hSchema, hInvalid, hErr]
  · intro schema hSchema hAllowed hValid
    simp [secureToolExecute, hAllowed, hSchema, hValid]
  · intro hSchema hAllowed
    simp [secureToolExecute, hAllowed, hSchema]

/-- Schema capability rejecting every value with one required-field
issue. -/
def schemaRejectAll : ZodSchemaModel :=
  fun _ => .error [{ path := ["p"], message := "Required" }]

/-- Schema capability coercing every value to the number 42. -/
def schemaCoerce42 : ZodSchemaModel :=
  fun _ => .ok (.num 42)

/-- Echo tool carrying the rejecting schema. -/
def toolEchoRejecting : ToolModel :=
  { name := "ok", description := "echo tool", schema := some schemaRejectAll
    executeFn := fun p _ => .ok p }

/-- Echo tool carrying the coercing schema. -/
def toolEchoCoercing : ToolModel :=
  { name := "ok", description := "echo tool", schema := some schemaCoerce42
    executeFn := fun p _ => .ok p }

/-- Store whose denied-tools array (reference 0) blocks the echo tool. -/
def storeDenyOk : ArrayStore := { arrays := [["ok"]] }

/-- Witness for secure_tool_execution_path: a denied tool throws the
not-allowed error with the sandbox untouched, an allowed tool with a
rejecting schema throws the validation error, and an allowed tool with a
coercing schema delegates to the sandbox with the validated value. -/
theorem secure_tool_execution_path_witness :
    (ToolGuard.isToolAllowed storeDenyOk defaultGuardConfig toolEcho.name = false ∧
     secureToolExecute storeDenyOk defaultGuardConfig sandboxFree toolEcho
       (.num 1) [] {} 0 none (.ok (.num 1)) none =
       (.error "Tool \"ok\" is not allowed", sandboxFree)) ∧
    (ToolGuard.isToolAllowed emptyStore defaultGuardConfig toolEchoRejecting.name = true ∧
     (ToolGuard.validateParams defaultGuardConfig (.num 1) schemaRejectAll).success = false ∧
     secureToolExecute emptyStore defaultGuardConfig sandboxFree toolEchoRejecting
       (.num 1) [] {} 0 none (.ok (.num 1)) none =
       (.error "Validation failed: Parameter validation failed", sandboxFree)) ∧
    (ToolGuard.isToolAllowed emptyStore defaultGuardConfig toolEchoCoercing.name = true ∧
     (ToolGuard.validateParams defaultGuardConfig (.num 1) schemaCoerce42).success = true ∧
     secureToolExecute emptyStore defaultGuardConfig sandboxFree toolEchoCoercing
       (.num 1) [] {} 0 none (.ok (.num 42)) none =
       ToolSandbox.executeRun sandboxFree toolEchoCoercing
         ((ToolGuard.validateParams defaultGuardConfig (.num 1) schemaCoerce42).data.getD .undef)
         [] {} 0 none (.ok (.num 42)) none) :=
  ⟨⟨rfl,
    (secure_tool_execution_path storeDenyOk defaultGuardConfig sandboxFree
      toolEcho (.num 1) [] {} 0 none (.ok (.num 1)) none).1 rfl⟩,
   ⟨rfl, rfl,
    (secure_tool_execution_path emptyStore defaultGuardConfig sandboxFree
      toolEchoRejecting (.num 1) [] {} 0 none (.ok (.num 1)) none).2.1
      schemaRejectAll rfl rfl rfl⟩,
   ⟨rfl, rfl,
    (secure_tool_execution_path emptyStore defaultGuardConfig sandboxFree
      toolEchoCoercing (.num 1) [] {} 0 none (.ok (.num 42)) none).2.2.1
      schemaCoerce42 rfl rfl rfl⟩⟩
